import Mathlib

/-!
# Verification of `react-github-calendar`, `src/services/contributions.ts`

A shallow embedding of the contribution-calendar module and proofs about it.

Calendar dates are embedded as natural-number day counts since 0000-03-01 of
the proleptic Gregorian calendar (Howard Hinnant's `days_from_civil` /
`civil_from_days` algorithms, restricted to non-negative years).  The source
formats dates as `yyyy-MM-dd` strings and compares them with string equality;
since `format` and `parseISO` are mutually inverse bijections between
day-precision dates and such strings, string equality on formatted dates is
day-number equality, so the embedding identifies the two and `format` /
`parseISO` become the identity.

date-fns collaborators used by the source, embedded below:
 * `getDay d`      : weekday, 0 = Sunday .. 6 = Saturday;
 * `addDays d n`   : `d + n`;
 * `setDay d i`    : for `0 ≤ i ≤ 6`, the day of weekday `i` in the
                     Sunday-started week containing `d`, i.e. `d - getDay d + i`;
                     for `i = 7` (used as the loop step), `d + (7 - getDay d)`;
 * `getMonth d`    : month 0..11 (the source only uses `getMonth d + 1`,
                     embedded directly as `monthOf`, 1..12);
 * `subYears d 1`  : same month/day one year earlier, clamping Feb 29 to
                     Feb 28 (date-fns `addMonths` end-of-month clamping);
 * `isSameYear a b`: equality of calendar years;
 * `isAfter a b`   : strict `>` on day numbers.
-/

namespace RGC

/-- Day count of the Gregorian date `y-m-d` since 0000-03-01
(Hinnant `days_from_civil`, shifted to stay in `Nat`). -/
def daysFromCivil (y m d : Nat) : Nat :=
  let ys := if m ≤ 2 then y - 1 else y
  let era := ys / 400
  let yoe := ys % 400
  let mp := if m > 2 then m - 3 else m + 9
  let doy := (153 * mp + 2) / 5 + (d - 1)
  let doe := yoe * 365 + yoe / 4 - yoe / 100 + doy
  era * 146097 + doe

/-- Gregorian `(year, month, day)` of a day count (Hinnant `civil_from_days`). -/
def civilFromDays (dn : Nat) : Nat × Nat × Nat :=
  let era := dn / 146097
  let doe := dn % 146097
  let yoe := (doe - doe / 1460 + doe / 36524 - doe / 146096) / 365
  let doy := doe - (365 * yoe + yoe / 4 - yoe / 100)
  let mp := (5 * doy + 2) / 153
  let d := doy - (153 * mp + 2) / 5 + 1
  let m := if mp < 10 then mp + 3 else mp - 9
  let y := yoe + era * 400 + (if m ≤ 2 then 1 else 0)
  (y, m, d)

/-- Calendar year of a day number (`new Date(s).getFullYear()` / `isSameYear`). -/
def yearOf (dn : Nat) : Nat := (civilFromDays dn).1

/-- Month 1..12 of a day number; embeds the source's `getMonth(d) + 1`. -/
def monthOf (dn : Nat) : Nat := (civilFromDays dn).2.1

/-- date-fns `getDay`: weekday with 0 = Sunday.  Day 719468 = 1970-01-01 was a
Thursday (weekday 4), and `(719468 + 3) % 7 = 4`. -/
def getDay (dn : Nat) : Nat := (dn + 3) % 7

/-- date-fns `setDay(d, i)` for a weekday index `0 ≤ i ≤ 6` with the default
`weekStartsOn = 0`: move within the Sunday-started week containing `d`. -/
def setDay0 (dn i : Nat) : Nat := dn - getDay dn + i

/-- date-fns `setDay(d, 7)`: with `weekStartsOn = 0` and an out-of-range index
the delta is `7 - getDay d`, i.e. the next Sunday strictly after `d`. -/
def nextSunday7 (dn : Nat) : Nat := dn + (7 - getDay dn)

/-- Gregorian leap year. -/
def isLeap (y : Nat) : Bool := (y % 4 == 0 && y % 100 != 0) || y % 400 == 0

/-- Length of month `m` of year `y`. -/
def daysInMonth (y m : Nat) : Nat :=
  if m = 2 then (if isLeap y then 29 else 28)
  else if m = 4 ∨ m = 6 ∨ m = 9 ∨ m = 11 then 30 else 31

/-- date-fns `subYears(d, 1)`: same month and day one year earlier, with the
day clamped to the target month's length (Feb 29 → Feb 28). -/
def subYears1 (dn : Nat) : Nat :=
  let c := civilFromDays dn
  daysFromCivil (c.1 - 1) c.2.1 (min c.2.2 (daysInMonth (c.1 - 1) c.2.1))

/-- `format(d, 'MMM')`: abbreviated month name of month `m` (1..12). -/
def monthAbbr : Nat → String
  | 1 => "Jan" | 2 => "Feb" | 3 => "Mar" | 4 => "Apr" | 5 => "May" | 6 => "Jun"
  | 7 => "Jul" | 8 => "Aug" | 9 => "Sep" | 10 => "Oct" | 11 => "Nov" | _ => "Dec"

/-! ## Data model (`ApiResult`, `Block`, `GraphData` of the source) -/

/-- One entry of `ApiResult.contributions`.  The TypeScript type declares
`intensity: number`; it is embedded as `Option Nat` so that presence or
absence of the field in the produced JavaScript objects is observable. -/
structure Contribution where
  date : Nat
  count : Nat
  color : String
  intensity : Option Nat
deriving DecidableEq, Repr

/-- One entry of `ApiResult.years` (`year` is the year string, e.g. "2023"). -/
structure YearEntry where
  year : Nat
  total : Nat
  rangeStart : Nat
  rangeEnd : Nat
deriving DecidableEq, Repr

/-- The primary (GitHub) source payload. -/
structure ApiResult where
  years : List YearEntry
  contributions : List Contribution
deriving DecidableEq, Repr

/-- A grid cell (`Block` in the source): a date with optional contribution info. -/
structure Block where
  date : Nat
  info : Option Contribution
deriving DecidableEq, Repr

/-- A month label `{x, label}`. -/
structure MonthLabel where
  x : Nat
  label : String
deriving DecidableEq, Repr

/-- The per-year result (`GraphData` in the source). -/
structure GraphData where
  year : Nat
  blocks : List (List Block)
  monthLabels : List MonthLabel
  totalCount : Nat
deriving DecidableEq, Repr

/-! ## The functions of `contributions.ts` -/

/-- `getContributionsForDate`: find the contribution record with this date. -/
def getContributionsForDate (data : ApiResult) (date : Nat) : Option Contribution :=
  data.contributions.find? (fun contrib => contrib.date == date)

/-- `getContributionCountForLastYear`.  `now` is the ambient `new Date()`.
JavaScript `findIndex` (−1 for no match) is embedded as `List.findIdx?`;
`slice(begin, end)` is `drop begin` then `take (end − begin)` (empty when
`end ≤ begin`, clipped at the list's length, exactly as in JavaScript). -/
def getContributionCountForLastYear (data : ApiResult) (now : Nat) : Nat :=
  match data.contributions.findIdx? (fun contrib => contrib.date == now) with
  | none => 0
  | some begi =>
    ((data.contributions.drop begi).take
      ((match data.contributions.findIdx? (fun contrib => contrib.date == subYears1 now) with
        | some e => e
        | none => data.contributions.length - 1) - begi)).foldl
      (fun acc contrib => acc + contrib.count) 0

/-- `getContributionCountForYear`: the matching `YearEntry`'s total, else 0. -/
def getContributionCountForYear (data : ApiResult) (year : Nat) : Nat :=
  match data.years.find? (fun entry => entry.year == year) with
  | some entry => entry.total
  | none => 0

/-- Fuel-driven unfolding of the `while (weekStart <= lastDate)` loop of
`getBlocksForYear`; `firstRowDates` supplies sufficient fuel, and
`firstRowDates_eq` below proves the loop equation. -/
def firstRowGo : Nat → Nat → Nat → List Nat
  | 0, _, _ => []
  | fuel + 1, weekStart, lastDate =>
    if weekStart ≤ lastDate then
      weekStart :: firstRowGo fuel (nextSunday7 weekStart) lastDate
    else []

/-- The week-start dates pushed by the `while` loop of `getBlocksForYear`
(the loop also records an `info` lookup per entry, which the subsequent
column pass discards; only the dates are observable). -/
def firstRowDates (weekStart lastDate : Nat) : List Nat :=
  firstRowGo (lastDate + 1 - weekStart) weekStart lastDate

/-- The inner `for (i = 0..6) { if (isAfter(date, lastDate)) break; push }`
loop of `getBlocksForYear`, for the column whose recorded week start is `ws`:
the dates `setDay0 ws i` ascend, and `break` on the first date past
`lastDate` is `takeWhile`. -/
def columnFor (data : ApiResult) (lastDate ws : Nat) : List Block :=
  ((((List.range 7).map (fun i => setDay0 ws i)).takeWhile (fun d => d ≤ lastDate)).map
    (fun d => { date := d, info := getContributionsForDate data d }))

/-- The start advancement of `getBlocksForYear`: `if (getDay(firstDate) !== 0)
weekStart = addDays(firstDate, getDay(firstDate))`. -/
def windowAdvance (firstDate : Nat) : Nat :=
  if getDay firstDate ≠ 0 then firstDate + getDay firstDate else firstDate

/-- The window phase of `getBlocksForYear`, over an explicit inclusive window
`[firstDate, lastDate]`: advance the start, collect week starts, then build
each column. -/
def windowBlocks (data : ApiResult) (firstDate lastDate : Nat) : List (List Block) :=
  (firstRowDates (windowAdvance firstDate) lastDate).map (columnFor data lastDate)

/-- `getBlocksForYear`: window is `[subYears(now,1), now]` when `fullYear`,
else `[Jan 1, Dec 31]` of `year`. -/
def getBlocksForYear (year : Nat) (data : ApiResult) (fullYear : Bool) (now : Nat) :
    List (List Block) :=
  let firstDate := if fullYear then subYears1 now else daysFromCivil year 1 1
  let lastDate := if fullYear then now else daysFromCivil year 12 31
  windowBlocks data firstDate lastDate

/-- `week[0].date` of a column; a column produced by `getBlocksForYear` is
never empty, so the default is never observable there. -/
def head0 (week : List Block) : Nat := (week.headD { date := 0, info := none }).date

/-- The body of `getMonthLabels`' `reduce`, as a fold over
`(labels so far, column index x, previousMonth)`. -/
def monthLabelStep (st : List MonthLabel × Nat × Nat) (week : List Block) :
    List MonthLabel × Nat × Nat :=
  let m := monthOf (head0 week)
  if m ≠ st.2.2 ∧ ¬(st.2.1 = 0 ∧ m = 12) then
    (st.1 ++ [{ x := st.2.1, label := monthAbbr m }], st.2.1 + 1, m)
  else
    (st.1, st.2.1 + 1, st.2.2)

/-- `getMonthLabels`: drop the final column when `fullYear`
(`slice(0, length − 1)`), then the `reduce` with `previousMonth`
initialised to `0` and labels pushed in order. -/
def getMonthLabels (blocks : List (List Block)) (fullYear : Bool) : List MonthLabel :=
  let weeks := blocks.take (if fullYear then blocks.length - 1 else blocks.length)
  (weeks.foldl monthLabelStep ([], 0, 0)).1

/-- `getGraphDataForYear`. -/
def getGraphDataForYear (year : Nat) (data : ApiResult) (fullYear : Bool) (now : Nat) :
    GraphData :=
  let blocks := getBlocksForYear year data fullYear now
  { year := year
    blocks := blocks
    monthLabels := getMonthLabels blocks fullYear
    totalCount :=
      if fullYear then getContributionCountForLastYear data now
      else getContributionCountForYear data year }

/-- One `t.set(contribution.count, {color, intensity})` of the `t` Map's
building pass, as a function update. -/
def buildTStep (t : Nat → Option (String × Option Nat)) (contribution : Contribution) :
    Nat → Option (String × Option Nat) :=
  fun k =>
    if k = contribution.count then some (contribution.color, contribution.intensity)
    else t k

/-- The `t` Map of `combineContributions`: `count ↦ {color, intensity}` of
the last primary record with that count (`Map.set` overwrites). -/
def buildT (contribs : List Contribution) : Nat → Option (String × Option Nat) :=
  contribs.foldl buildTStep (fun _ => none)

/-- One update of the `years` Map during the mapping pass: skip records the
secondary source does not touch, else `has ? set(get+1) : set(1)` (absent
reads as 0). -/
def touchedYearsStep (gitlab : Nat → Option Nat) (ys : Nat → Option Nat)
    (contribution : Contribution) : Nat → Option Nat :=
  match gitlab contribution.date with
  | none => ys
  | some _ =>
    fun k =>
      if k = yearOf contribution.date then some ((ys (yearOf contribution.date)).getD 0 + 1)
      else ys k

/-- The `years` Map of `combineContributions` after the mapping pass:
per year, how many primary dates the secondary source touched. -/
def touchedYears (gitlab : Nat → Option Nat) (contribs : List Contribution) :
    Nat → Option Nat :=
  contribs.foldl (touchedYearsStep gitlab) (fun _ => none)

/-- The per-record body of `combineContributions`' mapping pass.  In the
`t.has(count)` branch the spread `{...contribution, count, ...t.get(count)}`
replaces color and intensity; in the fallback branch the spread
`{...contribution, count, color: 'red'}` keeps the record's own intensity. -/
def mergeRecord (gitlab : Nat → Option Nat) (t : Nat → Option (String × Option Nat))
    (contribution : Contribution) : Contribution :=
  match gitlab contribution.date with
  | none => contribution
  | some g =>
    let count := contribution.count + g
    match t count with
    | some ci => { contribution with count := count, color := ci.1, intensity := ci.2 }
    | none => { contribution with count := count, color := "red" }

/-- `combineContributions` (the trailing `console.log` is pure diagnostics). -/
def combineContributions (gitlabContributions : Nat → Option Nat)
    (githubContributions : ApiResult) : ApiResult :=
  let t := buildT githubContributions.contributions
  let years := touchedYears gitlabContributions githubContributions.contributions
  { contributions :=
      githubContributions.contributions.map (mergeRecord gitlabContributions t)
    years :=
      githubContributions.years.map (fun year =>
        { year with
          total := match years year.year with
            | some n => year.total + n
            | none => year.total }) }

/-- `getGitHubGraphData` after the two fetches (the fetch mechanics are out
of scope; `gitlabContributions` and `githubData` are the parsed responses,
`now` the ambient `new Date()`).  `throw Error('No data available')` is the
`Except.error`; `isSameYear(parseISO(String(year)), now)` compares the
calendar year of `now` with `year`. -/
def getGitHubGraphData (gitlabContributions : Nat → Option Nat) (githubData : ApiResult)
    (fullYear : Bool) (years : List Nat) (now : Nat) : Except String (List GraphData) :=
  let data := combineContributions gitlabContributions githubData
  if data.years.length = 0 then
    Except.error "No data available"
  else
    Except.ok (years.map (fun year =>
      getGraphDataForYear year data (decide (yearOf now = year) && fullYear) now))

/-! ## Statement vocabulary -/

/-- The Month Labeler as the specification describes it (walk the considered
week-columns in order carrying a previous-month tracker, emit a label exactly
when the column's first-cell month differs from the tracker, except at column
0 when that month is December, and update the tracker on emission), with the
column index `x` and the tracker's value `prev` explicit, so that the
specification's claimed initial tracker value and the code's can both be
instantiated and compared. -/
def monthLabelsFrom (x prev : Nat) : List (List Block) → List MonthLabel
  | [] => []
  | week :: weeks =>
    let m := monthOf (head0 week)
    if m ≠ prev ∧ ¬(x = 0 ∧ m = 12) then
      { x := x, label := monthAbbr m } :: monthLabelsFrom (x + 1) m weeks
    else monthLabelsFrom (x + 1) prev weeks

/-- Some cell of the grid carries this date. -/
def gridHasDate (blocks : List (List Block)) (d : Nat) : Prop :=
  ∃ col ∈ blocks, ∃ b ∈ col, b.date = d

instance (blocks : List (List Block)) (d : Nat) : Decidable (gridHasDate blocks d) := by
  unfold gridHasDate; infer_instance

/-- The Sunday of the Sunday-started week containing `dn` (`setDay(dn, 0)`). -/
def sundayOf (dn : Nat) : Nat := dn - getDay dn

/-- The date of the first cell of the first week-column that `windowBlocks`
emits for a window starting at `firstDate`. -/
def anchorSunday (firstDate : Nat) : Nat := sundayOf (windowAdvance firstDate)

/-- A record is "touched for year `y`": present in the secondary source and
dated in calendar year `y`. -/
def touchedP (gitlab : Nat → Option Nat) (y : Nat) (contribution : Contribution) : Bool :=
  (gitlab contribution.date).isSome && (yearOf contribution.date == y)

/-- How many primary-source dates of calendar year `y` the secondary source
also carries (the per-year count the merger's `years` Map accumulates). -/
def touchedCount (gitlab : Nat → Option Nat) (github : ApiResult) (y : Nat) : Nat :=
  github.contributions.countP (touchedP gitlab y)

/-- The secondary (GitLab) per-date counts of the merger scenarios below:
2 contributions on 2023-06-01 and nothing else. -/
def scenarioGitlab : Nat → Option Nat :=
  fun d => if d = daysFromCivil 2023 6 1 then some 2 else none

/-- The primary payload of the specification's merge scenario: contributions
`[{2023-06-01, count 5}, {2023-06-02, count 3}]` and one YearSummary for
2023 with total 8. -/
def scenarioData : ApiResult :=
  { years := [ { year := 2023, total := 8, rangeStart := daysFromCivil 2023 1 1
               , rangeEnd := daysFromCivil 2023 12 31 } ]
    contributions :=
      [ { date := daysFromCivil 2023 6 1, count := 5, color := "#216e39", intensity := some 2 }
      , { date := daysFromCivil 2023 6 2, count := 3, color := "#30a14e", intensity := some 1 } ] }

/-- A contribution record used as the (never observable) `List.getD` default. -/
def noContribution : Contribution := { date := 0, count := 0, color := "", intensity := none }

/-- An `ApiResult` with no data at all. -/
def emptyData : ApiResult := { years := [], contributions := [] }

/-- A concrete "today" (2024-05-15) for the rolling-window aggregation. -/
def claim2Now : Nat := daysFromCivil 2024 5 15

/-- A series in the chronologically ascending order of the data model:
one-year-ago record first, today last. -/
def claim2Data : ApiResult :=
  { years := []
    contributions :=
      [ { date := daysFromCivil 2023 5 15, count := 1, color := "#c", intensity := some 1 }
      , { date := daysFromCivil 2023 11 1, count := 7, color := "#c", intensity := some 2 }
      , { date := daysFromCivil 2024 5 15, count := 5, color := "#c", intensity := some 3 } ] }

/-- The same records newest-first: today at index 0, one-year-ago last. -/
def claim2DataDesc : ApiResult :=
  { years := []
    contributions :=
      [ { date := daysFromCivil 2024 5 15, count := 5, color := "#c", intensity := some 3 }
      , { date := daysFromCivil 2023 11 1, count := 7, color := "#c", intensity := some 2 }
      , { date := daysFromCivil 2023 5 15, count := 1, color := "#c", intensity := some 1 } ] }

/-! ## Weekday and window arithmetic -/

lemma getDay_lt (dn : Nat) : getDay dn < 7 := by
  unfold getDay; omega

lemma lt_nextSunday7 (dn : Nat) : dn < nextSunday7 dn := by
  unfold nextSunday7 getDay; omega

lemma nextSunday7_eq (dn : Nat) (h : 7 ≤ dn) : nextSunday7 dn = sundayOf dn + 7 := by
  unfold nextSunday7 sundayOf getDay; omega

lemma getDay_sundayOf (dn : Nat) (h : 7 ≤ dn) : getDay (sundayOf dn) = 0 := by
  unfold sundayOf getDay; omega

lemma sundayOf_le (dn : Nat) : sundayOf dn ≤ dn := by
  unfold sundayOf; omega

lemma le_sundayOf_add (dn : Nat) : dn ≤ sundayOf dn + 6 := by
  unfold sundayOf getDay; omega

lemma nextSunday7_sunday (dn : Nat) (h : getDay dn = 0) : nextSunday7 dn = dn + 7 := by
  unfold nextSunday7; omega

lemma getDay_add_seven (dn : Nat) (h : getDay dn = 0) : getDay (dn + 7) = 0 := by
  unfold getDay at *; omega

lemma le_windowAdvance (s : Nat) : s ≤ windowAdvance s := by
  unfold windowAdvance; split <;> omega

lemma windowAdvance_le (s : Nat) : windowAdvance s ≤ s + 6 := by
  unfold windowAdvance
  have := getDay_lt s
  split <;> omega

/-- The three regimes of the anchor: no move on a Sunday start; the Sunday
`w` days back when the start's weekday `w` is 1..3; the next Sunday,
`7 − w` days forward, when `w` is 4..6. -/
lemma anchorSunday_cases (s : Nat) (h7 : 7 ≤ s) :
    anchorSunday s
      = if getDay s = 0 then s
        else if getDay s ≤ 3 then s - getDay s
        else s + (7 - getDay s) := by
  unfold anchorSunday windowAdvance sundayOf getDay
  split_ifs <;> omega

lemma anchorSunday_le (s : Nat) (h7 : 7 ≤ s) (h : getDay s ≤ 3) : anchorSunday s ≤ s := by
  rw [anchorSunday_cases s h7]
  unfold getDay at *
  split_ifs <;> omega

lemma getDay_anchorSunday (s : Nat) (h7 : 7 ≤ s) : getDay (anchorSunday s) = 0 := by
  unfold anchorSunday
  exact getDay_sundayOf _ (le_trans h7 (le_windowAdvance s))

/-! ## The `while (weekStart <= lastDate)` loop -/

lemma firstRowGo_congr : ∀ f1 f2 ws ld, ld + 1 - ws ≤ f1 → ld + 1 - ws ≤ f2 →
    firstRowGo f1 ws ld = firstRowGo f2 ws ld := by
  intro f1
  induction f1 with
  | zero =>
    intro f2 ws ld h1 h2
    have hlt : ld < ws := by omega
    cases f2 with
    | zero => rfl
    | succ g => simp [firstRowGo, Nat.not_le.mpr hlt]
  | succ f ih =>
    intro f2 ws ld h1 h2
    cases f2 with
    | zero =>
      have hlt : ld < ws := by omega
      simp [firstRowGo, Nat.not_le.mpr hlt]
    | succ g =>
      by_cases hle : ws ≤ ld
      · have hstep := lt_nextSunday7 ws
        simp only [firstRowGo, if_pos hle]
        exact congrArg _ (ih g (nextSunday7 ws) ld (by omega) (by omega))
      · simp [firstRowGo, hle]

/-- The loop equation of the `while` loop. -/
lemma firstRowDates_eq (ws ld : Nat) :
    firstRowDates ws ld
      = if ws ≤ ld then ws :: firstRowDates (nextSunday7 ws) ld else [] := by
  unfold firstRowDates
  by_cases hle : ws ≤ ld
  · obtain ⟨k, hk⟩ : ∃ k, ld + 1 - ws = k + 1 := ⟨ld - ws, by omega⟩
    rw [hk]
    have hstep := lt_nextSunday7 ws
    simp only [firstRowGo, if_pos hle, hle, if_true]
    exact congrArg _ (firstRowGo_congr k (ld + 1 - nextSunday7 ws) _ _ (by omega) le_rfl)
  · have : ld + 1 - ws = 0 := by omega
    rw [this]
    simp [firstRowGo, hle]

lemma firstRowGo_mem : ∀ fuel ws ld x, x ∈ firstRowGo fuel ws ld → ws ≤ x ∧ x ≤ ld := by
  intro fuel
  induction fuel with
  | zero => intro ws ld x hx; simp [firstRowGo] at hx
  | succ f ih =>
    intro ws ld x hx
    by_cases hle : ws ≤ ld
    · simp only [firstRowGo, if_pos hle, List.mem_cons] at hx
      rcases hx with rfl | hx
      · exact ⟨le_rfl, hle⟩
      · have := ih _ _ _ hx
        have := lt_nextSunday7 ws
        omega
    · simp [firstRowGo, hle] at hx

lemma firstRowDates_mem (ws ld x : Nat) (hx : x ∈ firstRowDates ws ld) :
    ws ≤ x ∧ x ≤ ld :=
  firstRowGo_mem _ _ _ _ hx

/-- On a Sunday start the loop's output is exactly the Sundays
`ws, ws + 7, ws + 14, …` up to `ld`. -/
lemma firstRowDates_sunday_mem : ∀ ws ld, getDay ws = 0 →
    ∀ x, (x ∈ firstRowDates ws ld ↔ ∃ k, x = ws + 7 * k ∧ x ≤ ld) := by
  have main : ∀ fuel ws ld, ld + 1 - ws ≤ fuel → getDay ws = 0 →
      ∀ x, (x ∈ firstRowGo fuel ws ld ↔ ∃ k, x = ws + 7 * k ∧ x ≤ ld) := by
    intro fuel
    induction fuel with
    | zero =>
      intro ws ld hf hsun x
      simp only [firstRowGo, List.not_mem_nil, false_iff]
      rintro ⟨k, rfl, hle⟩
      omega
    | succ f ih =>
      intro ws ld hf hsun x
      by_cases hle : ws ≤ ld
      · have hns : nextSunday7 ws = ws + 7 := nextSunday7_sunday ws hsun
        have hsun7 : getDay (ws + 7) = 0 := getDay_add_seven ws hsun
        simp only [firstRowGo, if_pos hle, List.mem_cons]
        rw [hns, ih (ws + 7) ld (by omega) hsun7 x]
        constructor
        · rintro (rfl | ⟨k, rfl, hk⟩)
          · exact ⟨0, by omega, hle⟩
          · exact ⟨k + 1, by omega, hk⟩
        · rintro ⟨k, rfl, hk⟩
          cases k with
          | zero => left; omega
          | succ k2 => right; exact ⟨k2, by omega, hk⟩
      · simp only [firstRowGo, if_neg hle, List.not_mem_nil, false_iff]
        rintro ⟨k, rfl, hk⟩
        omega
  intro ws ld hsun x
  exact main _ ws ld le_rfl hsun x

/-- Every week start except the last is followed by one more loop
iteration, i.e. its next Sunday is still inside the window. -/
lemma firstRowDates_dropLast : ∀ ws ld x, x ∈ (firstRowDates ws ld).dropLast →
    nextSunday7 x ≤ ld := by
  have main : ∀ fuel ws ld x, ld + 1 - ws ≤ fuel →
      x ∈ (firstRowGo fuel ws ld).dropLast → nextSunday7 x ≤ ld := by
    intro fuel
    induction fuel with
    | zero => intro ws ld x hf hx; simp [firstRowGo] at hx
    | succ f ih =>
      intro ws ld x hf hx
      by_cases hle : ws ≤ ld
      · simp only [firstRowGo, if_pos hle] at hx
        rcases hrest : firstRowGo f (nextSunday7 ws) ld with _ | ⟨y, ys⟩
        · rw [hrest] at hx
          simp at hx
        · rw [hrest] at hx
          rw [List.dropLast_cons₂] at hx
          rcases List.mem_cons.mp hx with rfl | hx2
          · have hy : y ∈ firstRowGo f (nextSunday7 x) ld := by
              rw [hrest]; exact List.mem_cons_self _ _
            have := firstRowGo_mem _ _ _ _ hy
            omega
          · have hstep := lt_nextSunday7 ws
            have := ih (nextSunday7 ws) ld x (by omega)
            rw [hrest] at this
            exact this hx2
      · simp [firstRowGo, hle] at hx
  intro ws ld x hx
  exact main _ ws ld x le_rfl hx

/-! ## Columns -/

lemma takeWhile_range_map : ∀ n s e,
    (((List.range n).map (fun i => s + i)).takeWhile (fun d => d ≤ e))
      = (List.range (min n (e + 1 - s))).map (fun i => s + i) := by
  intro n
  induction n with
  | zero => intro s e; simp
  | succ m ih =>
    intro s e
    have hfun : ((fun i => s + i) ∘ Nat.succ) = (fun i => (s + 1) + i) := by
      funext i; simp; omega
    rw [List.range_succ_eq_map, List.map_cons, List.map_map, hfun]
    by_cases hse : s ≤ e
    · rw [List.takeWhile_cons_of_pos (by simpa using hse)]
      have hmin : min (m + 1) (e + 1 - s) = min m (e - s) + 1 := by omega
      have hmin2 : e + 1 - (s + 1) = e - s := by omega
      rw [ih (s + 1) e, hmin2, hmin, List.range_succ_eq_map, List.map_cons,
        List.map_map, hfun]
    · rw [List.takeWhile_cons_of_neg (by simpa using hse)]
      have hmin : min (m + 1) (e + 1 - s) = 0 := by omega
      rw [hmin]
      simp

/-- Closed form of a column: the consecutive dates of the Sunday-started week
containing the recorded week start `ws`, truncated at the window end. -/
lemma columnFor_eq (data : ApiResult) (e ws : Nat) :
    columnFor data e ws
      = (List.range (min 7 (e + 1 - sundayOf ws))).map
          (fun i => { date := sundayOf ws + i
                      info := getContributionsForDate data (sundayOf ws + i) }) := by
  unfold columnFor
  have hfun : (fun i => setDay0 ws i) = (fun i => sundayOf ws + i) := by
    funext i; rfl
  rw [hfun, takeWhile_range_map, List.map_map]
  rfl

lemma mem_columnFor (data : ApiResult) (e ws : Nat) (b : Block) :
    b ∈ columnFor data e ws ↔
      ∃ d, sundayOf ws ≤ d ∧ d < sundayOf ws + 7 ∧ d ≤ e ∧
        b = { date := d, info := getContributionsForDate data d } := by
  rw [columnFor_eq]
  simp only [List.mem_map, List.mem_range]
  constructor
  · rintro ⟨i, hi, rfl⟩
    exact ⟨sundayOf ws + i, by omega, by omega, by omega, rfl⟩
  · rintro ⟨d, hd1, hd2, hd3, rfl⟩
    refine ⟨d - sundayOf ws, by omega, ?_⟩
    have : sundayOf ws + (d - sundayOf ws) = d := by omega
    rw [this]

lemma length_columnFor (data : ApiResult) (e ws : Nat) :
    (columnFor data e ws).length = min 7 (e + 1 - sundayOf ws) := by
  rw [columnFor_eq]
  simp

/-! ## The grid's date set -/

/-- The dates carried by the cells of `windowBlocks data s e` are exactly the
interval from the anchor Sunday to the window end. -/
theorem windowBlocks_dates (data : ApiResult) (s e : Nat) (h7 : 7 ≤ s)
    (hne : windowAdvance s ≤ e) (d : Nat) :
    gridHasDate (windowBlocks data s e) d ↔ anchorSunday s ≤ d ∧ d ≤ e := by
  have ha7 : 7 ≤ windowAdvance s := le_trans h7 (le_windowAdvance s)
  have hS0 : getDay (anchorSunday s) = 0 := getDay_anchorSunday s h7
  have hrow : firstRowDates (windowAdvance s) e
      = windowAdvance s :: firstRowDates (nextSunday7 (windowAdvance s)) e := by
    rw [firstRowDates_eq]; simp [hne]
  have hns : nextSunday7 (windowAdvance s) = anchorSunday s + 7 :=
    nextSunday7_eq _ ha7
  have hsun7 : getDay (anchorSunday s + 7) = 0 := getDay_add_seven _ hS0
  have hanchor : anchorSunday s = sundayOf (windowAdvance s) := rfl
  have hSle : anchorSunday s ≤ windowAdvance s := by rw [hanchor]; exact sundayOf_le _
  unfold gridHasDate windowBlocks
  constructor
  · rintro ⟨col, hcol, b, hb, rfl⟩
    obtain ⟨ws, hws, rfl⟩ := List.mem_map.mp hcol
    obtain ⟨d2, hd1, hd2, hd3, rfl⟩ := (mem_columnFor data e ws _).mp hb
    show anchorSunday s ≤ d2 ∧ d2 ≤ e
    rw [hrow] at hws
    rcases List.mem_cons.mp hws with rfl | hws2
    · exact ⟨by rw [hanchor]; exact hd1, hd3⟩
    · rw [hns] at hws2
      obtain ⟨k, rfl, hk⟩ := (firstRowDates_sunday_mem _ e hsun7 ws).mp hws2
      have hws0 : getDay (anchorSunday s + 7 + 7 * k) = 0 := by
        unfold getDay at hS0 ⊢; omega
      have hsws : sundayOf (anchorSunday s + 7 + 7 * k) = anchorSunday s + 7 + 7 * k := by
        unfold sundayOf; omega
      rw [hsws] at hd1
      exact ⟨by omega, hd3⟩
  · rintro ⟨hSd, hde⟩
    by_cases hcase : d < anchorSunday s + 7
    · refine ⟨columnFor data e (windowAdvance s),
        List.mem_map_of_mem _ (by rw [hrow]; exact List.mem_cons_self _ _),
        { date := d, info := getContributionsForDate data d }, ?_, rfl⟩
      exact (mem_columnFor data e _ _).mpr
        ⟨d, by rw [← hanchor]; exact hSd, by rw [← hanchor]; exact hcase, hde, rfl⟩
    · have hq : 1 ≤ (d - anchorSunday s) / 7 := by omega
      have hqle : anchorSunday s + 7 * ((d - anchorSunday s) / 7) ≤ d := by omega
      have hqlt : d < anchorSunday s + 7 * ((d - anchorSunday s) / 7) + 7 := by omega
      have hwsmem : anchorSunday s + 7 * ((d - anchorSunday s) / 7)
          ∈ firstRowDates (nextSunday7 (windowAdvance s)) e := by
        rw [hns]
        exact (firstRowDates_sunday_mem _ e hsun7 _).mpr
          ⟨(d - anchorSunday s) / 7 - 1, by omega, by omega⟩
      have hws0 : getDay (anchorSunday s + 7 * ((d - anchorSunday s) / 7)) = 0 := by
        unfold getDay at hS0 ⊢; omega
      have hsws : sundayOf (anchorSunday s + 7 * ((d - anchorSunday s) / 7))
          = anchorSunday s + 7 * ((d - anchorSunday s) / 7) := by
        unfold sundayOf; omega
      refine ⟨columnFor data e (anchorSunday s + 7 * ((d - anchorSunday s) / 7)),
        List.mem_map_of_mem _ (by rw [hrow]; exact List.mem_cons_of_mem _ hwsmem),
        { date := d, info := getContributionsForDate data d }, ?_, rfl⟩
      exact (mem_columnFor data e _ _).mpr
        ⟨d, by rw [hsws]; omega, by rw [hsws]; omega, hde, rfl⟩

/-! ## Column structure of the grid -/

/-- Every emitted column is, in closed form, the run of consecutive dates of
one Sunday-started week, truncated only at the window end. -/
lemma windowBlocks_col_shape (data : ApiResult) (s e : Nat) (h7 : 7 ≤ s) :
    ∀ col ∈ windowBlocks data s e, ∃ s0, getDay s0 = 0 ∧ s0 ≤ e ∧
      col = (List.range (min 7 (e + 1 - s0))).map
        (fun i => { date := s0 + i, info := getContributionsForDate data (s0 + i) }) := by
  intro col hcol
  obtain ⟨ws, hws, rfl⟩ := List.mem_map.mp hcol
  have hwsb := firstRowDates_mem _ _ _ hws
  have hws7 : 7 ≤ ws := le_trans (le_trans h7 (le_windowAdvance s)) hwsb.1
  exact ⟨sundayOf ws, getDay_sundayOf ws hws7,
    le_trans (sundayOf_le ws) hwsb.2, columnFor_eq data e ws⟩

lemma head?_range_map {β : Type} (f : Nat → β) (n : Nat) (hn : 1 ≤ n) :
    ((List.range n).map f).head? = some (f 0) := by
  obtain ⟨m, rfl⟩ : ∃ m, n = m + 1 := ⟨n - 1, by omega⟩
  rw [List.range_succ_eq_map]
  simp

lemma windowBlocks_col_facts (data : ApiResult) (s e : Nat) (h7 : 7 ≤ s) :
    ∀ col ∈ windowBlocks data s e, col.length ≤ 7 ∧ col ≠ [] ∧
      ∀ b, col.head? = some b → getDay b.date = 0 := by
  intro col hcol
  obtain ⟨s0, hs0, hs0e, rfl⟩ := windowBlocks_col_shape data s e h7 col hcol
  have hmin : 1 ≤ min 7 (e + 1 - s0) := by omega
  refine ⟨by simp, ?_, ?_⟩
  · have := head?_range_map
      (fun i => ({ date := s0 + i, info := getContributionsForDate data (s0 + i) } : Block))
      _ hmin
    intro hnil
    rw [hnil] at this
    simp at this
  · intro b hb
    rw [head?_range_map _ _ hmin] at hb
    cases hb
    simpa using hs0

lemma map_dropLast_comm {α β : Type} (f : α → β) :
    ∀ l : List α, l.dropLast.map f = (l.map f).dropLast := by
  intro l
  induction l with
  | nil => rfl
  | cons a l ih =>
    cases l with
    | nil => rfl
    | cons b l2 =>
      simp only [List.map_cons, List.dropLast_cons₂, List.map_cons]
      rw [← List.map_cons f b l2, ih]

/-- All columns except possibly the last hold a full week of 7 cells. -/
lemma windowBlocks_dropLast_full (data : ApiResult) (s e : Nat) (h7 : 7 ≤ s) :
    ∀ col ∈ (windowBlocks data s e).dropLast, col.length = 7 := by
  intro col hcol
  unfold windowBlocks at hcol
  rw [← map_dropLast_comm] at hcol
  obtain ⟨ws, hws, rfl⟩ := List.mem_map.mp hcol
  have hnext : nextSunday7 ws ≤ e := firstRowDates_dropLast _ _ _ hws
  have hwsmem : ws ∈ firstRowDates (windowAdvance s) e := by
    have : (firstRowDates (windowAdvance s) e).dropLast
        ⊆ firstRowDates (windowAdvance s) e := List.dropLast_subset _
    exact this hws
  have hwsb := firstRowDates_mem _ _ _ hwsmem
  have hws7 : 7 ≤ ws := le_trans (le_trans h7 (le_windowAdvance s)) hwsb.1
  rw [length_columnFor]
  have : sundayOf ws + 7 ≤ e := by
    rw [← nextSunday7_eq ws hws7]
    exact hnext
  omega

/-! ## Calendar-year window bounds -/

lemma jan1_ge (y : Nat) : 306 ≤ daysFromCivil y 1 1 := by
  simp only [daysFromCivil]
  norm_num
  omega

lemma jan1_le_dec31 (y : Nat) (hy : 1 ≤ y) :
    daysFromCivil y 1 1 + 364 ≤ daysFromCivil y 12 31 := by
  simp only [daysFromCivil]
  norm_num
  omega

lemma getBlocksForYear_false (year : Nat) (data : ApiResult) (now : Nat) :
    getBlocksForYear year data false now
      = windowBlocks data (daysFromCivil year 1 1) (daysFromCivil year 12 31) := rfl

/-! ## Claim C1 -/

/-- C1 (counterexample): the claim fails as stated.  For target year 2026,
whose January 1 falls on a Thursday, the non-full-year grid contains no cell
dated 2026-01-01, so the grid does not cover every date from January 1 to
December 31 of the target year. -/
theorem claim1_counterexample :
    getDay (daysFromCivil 2026 1 1) = 4 ∧
    ¬ gridHasDate (getBlocksForYear 2026 emptyData false 0) (daysFromCivil 2026 1 1) := by
  decide

/-- C1 (amended): for every non-full-year request and every target year
`y ≥ 1`, the grid's cell dates are exactly the interval from the anchor
Sunday to December 31; the anchor is on/before January 1 when January 1
falls on Sunday–Wednesday (so every date from January 1 to December 31 is
covered), but is the next Sunday strictly after January 1 when January 1
falls on Thursday–Saturday (so the first `7 − weekday` days of January are
not covered); every week-column has at most 7 cells, the first cell of every
week-column is a Sunday, and only the last column may be short. -/
theorem claim1_amended (year : Nat) (data : ApiResult) (now : Nat) (hy : 1 ≤ year) :
    (∀ d, gridHasDate (getBlocksForYear year data false now) d ↔
        anchorSunday (daysFromCivil year 1 1) ≤ d ∧ d ≤ daysFromCivil year 12 31) ∧
    (getDay (daysFromCivil year 1 1) ≤ 3 →
        anchorSunday (daysFromCivil year 1 1) ≤ daysFromCivil year 1 1) ∧
    (4 ≤ getDay (daysFromCivil year 1 1) →
        anchorSunday (daysFromCivil year 1 1)
          = daysFromCivil year 1 1 + (7 - getDay (daysFromCivil year 1 1))) ∧
    (∀ col ∈ getBlocksForYear year data false now,
        col.length ≤ 7 ∧ col ≠ [] ∧ ∀ b, col.head? = some b → getDay b.date = 0) ∧
    (∀ col ∈ (getBlocksForYear year data false now).dropLast, col.length = 7) := by
  have h7 : 7 ≤ daysFromCivil year 1 1 := le_trans (by omega) (jan1_ge year)
  have hlen := jan1_le_dec31 year hy
  have hne : windowAdvance (daysFromCivil year 1 1) ≤ daysFromCivil year 12 31 := by
    have := windowAdvance_le (daysFromCivil year 1 1)
    omega
  rw [getBlocksForYear_false]
  refine ⟨fun d => windowBlocks_dates data _ _ h7 hne d,
    fun h3 => anchorSunday_le _ h7 h3, fun h4 => ?_,
    windowBlocks_col_facts data _ _ h7,
    windowBlocks_dropLast_full data _ _ h7⟩
  rw [anchorSunday_cases _ h7]
  split_ifs <;> omega

/-- C1 (witness): the amended theorem applied at year 2023, whose January 1
is a Sunday, shows the grid covers 2023-01-01. -/
theorem claim1_witness :
    gridHasDate (getBlocksForYear 2023 emptyData false 0) (daysFromCivil 2023 1 1) :=
  ((claim1_amended 2023 emptyData 0 (by norm_num)).1 (daysFromCivil 2023 1 1)).mpr (by decide)

/-! ## Claim C5 -/

/-- C5 (counterexample): the claim fails as stated.  The 2024 calendar
window starts on Monday 2024-01-01 (not a Sunday), yet the first emitted
week begins on Sunday 2023-12-31 — before the window start, not on the next
Sunday strictly after it. -/
theorem claim5_counterexample :
    getDay (daysFromCivil 2024 1 1) = 1 ∧
    ((getBlocksForYear 2024 emptyData false 0).head?.map
        (fun col => col.head?.map Block.date)) = some (some (daysFromCivil 2023 12 31)) ∧
    daysFromCivil 2023 12 31 < daysFromCivil 2024 1 1 := by
  decide

/-- C5 (amended): the first emitted week begins at the anchor Sunday: with
the window start's weekday `w`, no advancement occurs when `w = 0` (Sunday,
as claimed); the week begins `w` days BEFORE the window start when `w` is
1..3 (Monday–Wednesday); and only when `w` is 4..6 (Thursday–Saturday) does
it begin on the next Sunday strictly after the window start, `7 − w` days
forward, as the claim said for every non-Sunday start. -/
theorem claim5_amended (data : ApiResult) (s e : Nat) (h7 : 7 ≤ s)
    (hne : windowAdvance s ≤ e) :
    ∃ col b, (windowBlocks data s e).head? = some col ∧ col.head? = some b ∧
      b.date = anchorSunday s ∧
      (getDay s = 0 → b.date = s) ∧
      (1 ≤ getDay s → getDay s ≤ 3 → b.date = s - getDay s) ∧
      (4 ≤ getDay s → b.date = s + (7 - getDay s)) := by
  have hrow : firstRowDates (windowAdvance s) e
      = windowAdvance s :: firstRowDates (nextSunday7 (windowAdvance s)) e := by
    rw [firstRowDates_eq]; simp [hne]
  have hheadB : (windowBlocks data s e).head?
      = some (columnFor data e (windowAdvance s)) := by
    unfold windowBlocks
    rw [hrow]
    simp
  have hSe : sundayOf (windowAdvance s) ≤ e := le_trans (sundayOf_le _) hne
  have hmin : 1 ≤ min 7 (e + 1 - sundayOf (windowAdvance s)) := by omega
  have hheadC : (columnFor data e (windowAdvance s)).head?
      = some { date := sundayOf (windowAdvance s) + 0,
               info := getContributionsForDate data (sundayOf (windowAdvance s) + 0) } := by
    rw [columnFor_eq]
    exact head?_range_map _ _ hmin
  have hdate : (Block.mk (sundayOf (windowAdvance s) + 0)
      (getContributionsForDate data (sundayOf (windowAdvance s) + 0))).date
      = anchorSunday s := by
    show sundayOf (windowAdvance s) + 0 = anchorSunday s
    unfold anchorSunday
    omega
  refine ⟨_, _, hheadB, hheadC, hdate, ?_, ?_, ?_⟩
  · intro h0
    rw [hdate, anchorSunday_cases s h7]
    simp [h0]
  · intro h1 h3
    rw [hdate, anchorSunday_cases s h7]
    split_ifs <;> omega
  · intro h4
    rw [hdate, anchorSunday_cases s h7]
    split_ifs <;> omega

/-- C5 (witness): the amended theorem applied at the 2023 calendar window,
whose start 2023-01-01 is a Sunday, so no advancement occurs. -/
theorem claim5_witness :
    ∃ col b,
      (windowBlocks emptyData (daysFromCivil 2023 1 1) (daysFromCivil 2023 12 31)).head?
        = some col ∧ col.head? = some b ∧
      b.date = anchorSunday (daysFromCivil 2023 1 1) ∧
      (getDay (daysFromCivil 2023 1 1) = 0 → b.date = daysFromCivil 2023 1 1) ∧
      (1 ≤ getDay (daysFromCivil 2023 1 1) → getDay (daysFromCivil 2023 1 1) ≤ 3 →
        b.date = daysFromCivil 2023 1 1 - getDay (daysFromCivil 2023 1 1)) ∧
      (4 ≤ getDay (daysFromCivil 2023 1 1) →
        b.date = daysFromCivil 2023 1 1 + (7 - getDay (daysFromCivil 2023 1 1))) :=
  claim5_amended emptyData _ _ (by decide) (by decide)

/-! ## Claim C10 -/

/-- C10 (counterexample): the claim fails as stated.  The 2026 calendar
window starts on Thursday 2026-01-01 (not a Sunday), yet every cell of the
grid — the first column included — is dated on or after the window start, so
the first column contains no cell strictly before the window start. -/
theorem claim10_counterexample :
    getDay (daysFromCivil 2026 1 1) ≠ 0 ∧
    ((getBlocksForYear 2026 emptyData false 0).all
      (fun col => col.all (fun b => decide (daysFromCivil 2026 1 1 ≤ b.date)))) = true := by
  decide

/-- C10 (amended): every emitted week-column is the run of consecutive
Sunday-through-Saturday dates of a single week, truncated only past the
window end (hence never short at its start); but the first column reaches
strictly before the window start only when the start's weekday is 1..3
(Monday–Wednesday) — when the weekday is 0 or 4..6 every cell is dated on or
after the window start. -/
theorem claim10_amended (data : ApiResult) (s e : Nat) (h7 : 7 ≤ s)
    (hne : windowAdvance s ≤ e) :
    (∀ col ∈ windowBlocks data s e, ∃ s0, getDay s0 = 0 ∧ 1 ≤ min 7 (e + 1 - s0) ∧
        col = (List.range (min 7 (e + 1 - s0))).map
          (fun i => { date := s0 + i, info := getContributionsForDate data (s0 + i) })) ∧
    (1 ≤ getDay s → getDay s ≤ 3 →
        ∃ col b, (windowBlocks data s e).head? = some col ∧ b ∈ col ∧ b.date < s) ∧
    ((getDay s = 0 ∨ 4 ≤ getDay s) →
        ∀ col ∈ windowBlocks data s e, ∀ b ∈ col, s ≤ b.date) := by
  refine ⟨?_, ?_, ?_⟩
  · intro col hcol
    obtain ⟨s0, hs0, hs0e, rfl⟩ := windowBlocks_col_shape data s e h7 col hcol
    exact ⟨s0, hs0, by omega, rfl⟩
  · intro h1 h3
    have hrow : firstRowDates (windowAdvance s) e
        = windowAdvance s :: firstRowDates (nextSunday7 (windowAdvance s)) e := by
      rw [firstRowDates_eq]; simp [hne]
    have hheadB : (windowBlocks data s e).head?
        = some (columnFor data e (windowAdvance s)) := by
      unfold windowBlocks
      rw [hrow]
      simp
    have hSe : sundayOf (windowAdvance s) ≤ e := le_trans (sundayOf_le _) hne
    have hAS : anchorSunday s = sundayOf (windowAdvance s) := rfl
    refine ⟨_, Block.mk (anchorSunday s)
        (getContributionsForDate data (anchorSunday s)), hheadB, ?_, ?_⟩
    · exact (mem_columnFor data e _ _).mpr
        ⟨anchorSunday s, by omega, by omega, by omega, rfl⟩
    · show anchorSunday s < s
      rw [anchorSunday_cases s h7]
      split_ifs <;> omega
  · intro hcase col hcol b hb
    have hgrid : gridHasDate (windowBlocks data s e) b.date := ⟨col, hcol, b, hb, rfl⟩
    have hS := ((windowBlocks_dates data s e h7 hne b.date).mp hgrid).1
    rw [anchorSunday_cases s h7] at hS
    rcases hcase with h0 | h4
    · simp [h0] at hS
      omega
    · have hlt := getDay_lt s
      split_ifs at hS <;> omega

/-- C10 (witness): the amended theorem applied at the 2024 calendar window,
whose start 2024-01-01 is a Monday: the first column holds a cell dated
before the window start. -/
theorem claim10_witness :
    ∃ col b,
      (windowBlocks emptyData (daysFromCivil 2024 1 1) (daysFromCivil 2024 12 31)).head?
        = some col ∧ b ∈ col ∧ b.date < daysFromCivil 2024 1 1 :=
  (claim10_amended emptyData _ _ (by decide) (by decide)).2.1 (by decide) (by decide)

/-! ## Claim C4 -/

lemma monthLabelStep_apply (labels : List MonthLabel) (x prev : Nat) (w : List Block) :
    monthLabelStep (labels, x, prev) w
      = if monthOf (head0 w) ≠ prev ∧ ¬(x = 0 ∧ monthOf (head0 w) = 12) then
          (labels ++ [{ x := x, label := monthAbbr (monthOf (head0 w)) }], x + 1,
            monthOf (head0 w))
        else (labels, x + 1, prev) := rfl

/-- The `reduce` of `getMonthLabels`, with any starting accumulator, agrees
with the specification-style recursion `monthLabelsFrom`. -/
lemma monthLabels_foldl : ∀ (weeks : List (List Block)) (labels : List MonthLabel)
    (x prev : Nat),
    (weeks.foldl monthLabelStep (labels, x, prev)).1
      = labels ++ monthLabelsFrom x prev weeks := by
  intro weeks
  induction weeks with
  | nil => intro labels x prev; simp [monthLabelsFrom]
  | cons w ws ih =>
    intro labels x prev
    rw [List.foldl_cons, monthLabelStep_apply]
    show _ = labels ++ monthLabelsFrom x prev (w :: ws)
    unfold monthLabelsFrom
    by_cases h : monthOf (head0 w) ≠ prev ∧ ¬(x = 0 ∧ monthOf (head0 w) = 12)
    · rw [if_pos h, if_pos h, ih]
      simp
    · rw [if_neg h, if_neg h, ih]

/-- C4 (counterexample): the claim fails as stated.  On a one-column grid
whose first cell is dated in January, a labeler whose previous-month tracker
starts at January (month 1) emits no label at column 0 (no month change),
but the code emits the label `(0, "Jan")`: the code's tracker starts at 0,
not at January. -/
theorem claim4_counterexample :
    monthLabelsFrom 0 1 [[Block.mk (daysFromCivil 2023 1 1) none]] = [] ∧
    getMonthLabels [[Block.mk (daysFromCivil 2023 1 1) none]] false
      = [{ x := 0, label := "Jan" }] := by
  decide

/-- C4 (amended): the Month Labeler initializes its previous-month tracker
to 0 — a sentinel matching no real month (the source comments it
"January", but months compare as 1..12) — and, walking the week-columns in
order (excluding the final column when `fullYear`), emits a label at a
column exactly when that column's first-cell month differs from the tracked
previous month, except at column 0 when that month is December; the tracker
is updated only on emission.  Stated as: the code's fold equals the
specification-style recursion started with tracker 0. -/
theorem claim4_amended (blocks : List (List Block)) (fullYear : Bool)
    (_hcols : ∀ col ∈ blocks, col ≠ []) :
    getMonthLabels blocks fullYear
      = monthLabelsFrom 0 0
          (blocks.take (if fullYear then blocks.length - 1 else blocks.length)) := by
  unfold getMonthLabels
  rw [monthLabels_foldl]
  simp

/-- C4 (witness): the amended theorem applied to the one-January-column
grid: the code and the tracker-0 labeler agree there (both emit
`(0, "Jan")`). -/
theorem claim4_witness :
    getMonthLabels [[Block.mk (daysFromCivil 2023 1 1) none]] false
      = monthLabelsFrom 0 0 [[Block.mk (daysFromCivil 2023 1 1) none]] := by
  have h := claim4_amended [[Block.mk (daysFromCivil 2023 1 1) none]] false (by decide)
  simpa using h

/-! ## Claim C2 -/

lemma foldl_add_count : ∀ (l : List Contribution) (a : Nat),
    l.foldl (fun acc contrib => acc + contrib.count) a
      = a + (l.map Contribution.count).sum := by
  intro l
  induction l with
  | nil => intro a; simp
  | cons c l2 ih =>
    intro a
    simp only [List.foldl_cons, List.map_cons, List.sum_cons]
    rw [ih]
    omega

lemma take_drop_sum (l : List Nat) : ∀ (n b : Nat), b + n ≤ l.length →
    ((l.drop b).take n).sum = ∑ i in Finset.range n, l.getD (b + i) 0 := by
  intro n
  induction n with
  | zero => intro b hb; simp
  | succ m ih =>
    intro b hb
    have hblt : b < l.length := by omega
    rw [List.drop_eq_getElem_cons hblt, List.take_succ_cons, List.sum_cons,
      Finset.sum_range_succ']
    have h1 : ((l.drop (b + 1)).take m).sum = ∑ i in Finset.range m, l.getD (b + 1 + i) 0 :=
      ih (b + 1) (by omega)
    have h2 : ∀ i ∈ Finset.range m, l.getD (b + 1 + i) 0 = l.getD (b + (i + 1)) 0 := by
      intro i _
      have : b + 1 + i = b + (i + 1) := by omega
      rw [this]
    have h3 : l.getD (b + 0) 0 = l[b] := by
      rw [Nat.add_zero, List.getD_eq_getElem?_getD, List.getElem?_eq_getElem hblt]
      rfl
    rw [h1, Finset.sum_congr rfl h2, h3]
    omega

/-- C2 (counterexample): the claim fails as stated.  With the unified series
in the chronologically ascending order of the data model and records for
one-year-ago (count 1, index 0), an intermediate day (count 7, index 1) and
today (count 5, index 2), the claim's slice — from the one-year-ago index up
to (excluding) today's index — sums to 8, but the code returns 0: it slices
from today's index up to (excluding) the one-year-ago index, which is empty
here. -/
theorem claim2_counterexample :
    (claim2Data.contributions.findIdx? (fun contrib => contrib.date == claim2Now)
      = some 2) ∧
    (claim2Data.contributions.findIdx?
      (fun contrib => contrib.date == subYears1 claim2Now) = some 0) ∧
    ((claim2Data.contributions.drop 0).take (2 - 0)).foldl
      (fun acc contrib => acc + contrib.count) 0 = 8 ∧
    getContributionCountForLastYear claim2Data claim2Now = 0 := by
  decide

/-- C2 (amended): with no record dated today the total is 0 regardless of
other data; otherwise the total is the sum of `count` over the half-open
index slice from TODAY's index up to (excluding) the one-year-ago record's
index — so today's own contribution is included and the one-year-ago record
excluded, and the slice is empty (total 0) whenever today's index is not
below the endpoint — and when no record matches one year before today the
endpoint falls back to the final index, `length − 1` (the oldest record
only if the series is newest-first). -/
theorem claim2_amended (data : ApiResult) (now : Nat) :
    (data.contributions.findIdx? (fun contrib => contrib.date == now) = none →
      getContributionCountForLastYear data now = 0) ∧
    (∀ b en, data.contributions.findIdx? (fun contrib => contrib.date == now) = some b →
      en = (match data.contributions.findIdx?
              (fun contrib => contrib.date == subYears1 now) with
            | some e => e
            | none => data.contributions.length - 1) →
      getContributionCountForLastYear data now
        = ∑ i in Finset.Ico b en, (data.contributions.getD i noContribution).count) := by
  constructor
  · intro h
    simp only [getContributionCountForLastYear, h]
  · intro b en hb hen
    have hblt : b < data.contributions.length :=
      (List.findIdx?_eq_some_iff_findIdx_eq.mp hb).1
    have henle : en ≤ data.contributions.length := by
      rcases hfe : data.contributions.findIdx?
          (fun contrib => contrib.date == subYears1 now) with _ | e
      · rw [hfe] at hen
        have h2 : en = data.contributions.length - 1 := hen
        omega
      · rw [hfe] at hen
        have h2 : en = e := hen
        have := (List.findIdx?_eq_some_iff_findIdx_eq.mp hfe).1
        omega
    simp only [getContributionCountForLastYear, hb]
    rw [← hen, foldl_add_count, List.map_take, List.map_drop, Nat.zero_add]
    rw [take_drop_sum _ (en - b) b (by simp; omega)]
    rw [Finset.sum_Ico_eq_sum_range]
    refine Finset.sum_congr rfl ?_
    intro i hi
    rw [Finset.mem_range] at hi
    have hilt : b + i < data.contributions.length := by omega
    rw [List.getD_eq_getElem?_getD, List.getElem?_eq_getElem (by simpa using hilt),
      List.getD_eq_getElem?_getD, List.getElem?_eq_getElem hilt, List.getElem_map]
    rfl

/-- C2 (witness): the amended theorem applied to a newest-first series
(today count 5 at index 0, then count 7, then the one-year-ago record at
index 2): the rolling total is the sum over indices 0 and 1. -/
theorem claim2_witness :
    getContributionCountForLastYear claim2DataDesc claim2Now
      = ∑ i in Finset.Ico 0 2, (claim2DataDesc.contributions.getD i noContribution).count :=
  (claim2_amended claim2DataDesc claim2Now).2 0 2 (by decide) (by decide)

/-! ## Claim C3 -/

lemma buildT_foldl_eq_none :
    ∀ (cs : List Contribution) (t0 : Nat → Option (String × Option Nat)) (k : Nat),
    (∀ c ∈ cs, c.count ≠ k) → (cs.foldl buildTStep t0) k = t0 k := by
  intro cs
  induction cs with
  | nil => intro t0 k _; rfl
  | cons c cs ih =>
    intro t0 k h
    rw [List.foldl_cons, ih (buildTStep t0 c) k (fun c2 hc2 => h c2 (List.mem_cons_of_mem _ hc2))]
    unfold buildTStep
    rw [if_neg (fun hkc => h c (List.mem_cons_self _ _) hkc.symm)]

/-- A merged count observed on no primary record has no entry in the `t`
Map. -/
lemma buildT_eq_none (cs : List Contribution) (k : Nat) (h : ∀ c ∈ cs, c.count ≠ k) :
    buildT cs k = none :=
  buildT_foldl_eq_none cs _ k h

/-- C3 (counterexample): the claim fails as stated.  Merging the scenario
data gives record 0 the count 7, which matches no primary-observed count
(5 or 3), so the overflow branch fires — yet the resulting record's
intensity is `some 2`, the primary record's own intensity, not absent: the
spread `{...contribution, count, color: 'red'}` keeps the old intensity. -/
theorem claim3_counterexample :
    ((combineContributions scenarioGitlab scenarioData).contributions.getD 0
      noContribution).color = "red" ∧
    ((combineContributions scenarioGitlab scenarioData).contributions.getD 0
      noContribution).intensity = some 2 := by
  decide

/-- C3 (amended): for every merged record whose merged count matches no
count observed among the primary source's records, the resulting record has
the fixed overflow color `"red"`, the merged count — and the primary
record's original intensity, unchanged rather than absent. -/
theorem claim3_amended (gitlab : Nat → Option Nat) (github : ApiResult) (i : Nat)
    (c : Contribution) (g : Nat)
    (hc : github.contributions[i]? = some c)
    (hg : gitlab c.date = some g)
    (hnone : ∀ c2 ∈ github.contributions, c2.count ≠ c.count + g) :
    (combineContributions gitlab github).contributions[i]?
      = some { c with count := c.count + g, color := "red" } ∧
    ({ c with count := c.count + g, color := "red" } : Contribution).intensity
      = c.intensity := by
  refine ⟨?_, rfl⟩
  unfold combineContributions
  simp only [List.getElem?_map, hc, Option.map_some']
  simp only [mergeRecord, hg]
  rw [buildT_eq_none github.contributions (c.count + g) hnone]

/-- C3 (witness): the amended theorem applied to the scenario data at index
0 (merged count 7, observed counts 5 and 3). -/
theorem claim3_witness :
    (combineContributions scenarioGitlab scenarioData).contributions[0]?
      = some { date := daysFromCivil 2023 6 1, count := 5 + 2, color := "red"
             , intensity := some 2 } ∧
    ({ date := daysFromCivil 2023 6 1, count := 5 + 2, color := "red"
     , intensity := some 2 } : Contribution).intensity = some 2 :=
  claim3_amended scenarioGitlab scenarioData 0
    { date := daysFromCivil 2023 6 1, count := 5, color := "#216e39", intensity := some 2 }
    2 (by decide) (by decide) (by decide)

/-! ## Claim C6 -/

/-- C6: the merger's output `contributions` has the primary input's length;
a primary record whose date the secondary source also carries appears at the
same position with `count = primaryCount + secondaryCount` (and its date);
a primary record whose date is absent from the secondary source passes
through unchanged. -/
theorem claim6 (gitlab : Nat → Option Nat) (github : ApiResult) :
    (combineContributions gitlab github).contributions.length
        = github.contributions.length ∧
    (∀ (i : Nat) (c : Contribution), github.contributions[i]? = some c →
      gitlab c.date = none →
      (combineContributions gitlab github).contributions[i]? = some c) ∧
    (∀ (i : Nat) (c : Contribution) (g : Nat), github.contributions[i]? = some c →
      gitlab c.date = some g →
      ∃ c2 : Contribution, (combineContributions gitlab github).contributions[i]? = some c2 ∧
        c2.date = c.date ∧ c2.count = c.count + g) := by
  refine ⟨by simp [combineContributions], ?_, ?_⟩
  · intro i c hc hgl
    unfold combineContributions
    simp only [List.getElem?_map, hc, Option.map_some']
    simp only [mergeRecord, hgl]
  · intro i c g hc hgl
    unfold combineContributions
    simp only [List.getElem?_map, hc, Option.map_some']
    simp only [mergeRecord, hgl]
    rcases ht : buildT github.contributions (c.count + g) with _ | ci
    · exact ⟨_, rfl, rfl, rfl⟩
    · exact ⟨_, rfl, rfl, rfl⟩

/-- C6 (witness): on the scenario data, record 1 (2023-06-02, untouched)
passes through unchanged. -/
theorem claim6_witness :
    (combineContributions scenarioGitlab scenarioData).contributions[1]?
      = some { date := daysFromCivil 2023 6 2, count := 3, color := "#30a14e"
             , intensity := some 1 } :=
  (claim6 scenarioGitlab scenarioData).2.1 1
    { date := daysFromCivil 2023 6 2, count := 3, color := "#30a14e", intensity := some 1 }
    (by decide) (by decide)

/-! ## Claim C7 -/

/-- After folding the mapping pass over `cs`, the `years` Map holds, at key
`k`, the accumulator's entry increased by the number of records of `cs`
touched for year `k` (with an absent entry read as 0), and no entry exactly
when that number is 0 and the accumulator had none. -/
lemma touchedYears_foldl (gitlab : Nat → Option Nat) :
    ∀ (cs : List Contribution) (acc : Nat → Option Nat) (k : Nat),
    (cs.foldl (touchedYearsStep gitlab) acc) k
      = if cs.countP (touchedP gitlab k) = 0 then acc k
        else some ((acc k).getD 0 + cs.countP (touchedP gitlab k)) := by
  intro cs
  induction cs with
  | nil => intro acc k; simp
  | cons c cs ih =>
    intro acc k
    rw [List.foldl_cons, ih, List.countP_cons]
    rcases hgd : gitlab c.date with _ | g
    · have hp : touchedP gitlab k c = false := by
        unfold touchedP
        rw [hgd]
        rfl
      have hstep : touchedYearsStep gitlab acc c = acc := by
        unfold touchedYearsStep
        rw [hgd]
      rw [hp, hstep]
      simp
    · by_cases hk : k = yearOf c.date
      · have hp : touchedP gitlab k c = true := by
          unfold touchedP
          rw [hgd, hk]
          simp
        have hstep : touchedYearsStep gitlab acc c k = some ((acc k).getD 0 + 1) := by
          unfold touchedYearsStep
          rw [hgd]
          show (if k = yearOf c.date then _ else acc k) = _
          rw [if_pos hk, ← hk]
        rw [hp, hstep]
        have hone : (if (true : Bool) = true then 1 else 0) = 1 := rfl
        rw [hone]
        rw [if_neg (show ¬(List.countP (touchedP gitlab k) cs + 1 = 0) by omega)]
        split_ifs with h1 <;>
          simp only [Option.getD_some, Option.some.injEq] <;> omega
      · have hp : touchedP gitlab k c = false := by
          unfold touchedP
          rw [hgd]
          simp only [Option.isSome_some, Bool.true_and, beq_eq_false_iff_ne, ne_eq]
          exact fun hy => hk hy.symm
        have hstep : touchedYearsStep gitlab acc c k = acc k := by
          unfold touchedYearsStep
          rw [hgd]
          show (if k = yearOf c.date then _ else acc k) = acc k
          rw [if_neg hk]
        rw [hp, hstep]
        simp

/-- The `years` Map after the mapping pass holds exactly the touched-date
counts: no entry for an untouched year, else the count. -/
lemma touchedYears_spec (gitlab : Nat → Option Nat) (cs : List Contribution) (k : Nat) :
    touchedYears gitlab cs k
      = if cs.countP (touchedP gitlab k) = 0 then none
        else some (cs.countP (touchedP gitlab k)) := by
  unfold touchedYears
  rw [touchedYears_foldl]
  split_ifs <;> simp

/-- C7: each output YearSummary's total is the primary total plus the number
of touched dates (dates present in both sources) of that year — one per
merged day, not the added counts. -/
theorem claim7 (gitlab : Nat → Option Nat) (github : ApiResult) :
    ∀ (i : Nat) (y : YearEntry), github.years[i]? = some y →
      (combineContributions gitlab github).years[i]?
        = some { y with total := y.total + touchedCount gitlab github y.year } := by
  intro i y hy
  unfold combineContributions
  simp only [List.getElem?_map, hy, Option.map_some']
  rw [touchedYears_spec]
  unfold touchedCount
  by_cases h0 : github.contributions.countP (touchedP gitlab y.year) = 0
  · rw [if_pos h0, h0]
    simp
  · rw [if_neg h0]

/-- C7 (witness): the specification's scenario: merging adds one touched
date in 2023, so the 2023 total goes from 8 to 8 + 1 = 9 (not 8 + 2). -/
theorem claim7_witness :
    (combineContributions scenarioGitlab scenarioData).years[0]?
      = some { year := 2023, total := 8 + touchedCount scenarioGitlab scenarioData 2023
             , rangeStart := daysFromCivil 2023 1 1
             , rangeEnd := daysFromCivil 2023 12 31 } :=
  claim7 scenarioGitlab scenarioData 0
    { year := 2023, total := 8, rangeStart := daysFromCivil 2023 1 1
    , rangeEnd := daysFromCivil 2023 12 31 } (by decide)

/-! ## Claim C8 -/

/-- C8: the orchestrator fails with message "No data available" exactly when
the merged series has zero YearSummary entries, and otherwise returns one
result per requested year (no partial results in the failure case, by the
`Except` semantics of `throw`). -/
theorem claim8 (gitlab : Nat → Option Nat) (github : ApiResult) (fullYear : Bool)
    (years : List Nat) (now : Nat) :
    (getGitHubGraphData gitlab github fullYear years now
        = Except.error "No data available"
      ↔ (combineContributions gitlab github).years = []) ∧
    ((combineContributions gitlab github).years ≠ [] →
      ∃ results, getGitHubGraphData gitlab github fullYear years now
          = Except.ok results ∧ results.length = years.length) := by
  unfold getGitHubGraphData
  by_cases h : (combineContributions gitlab github).years.length = 0
  · rw [if_pos h]
    refine ⟨⟨fun _ => List.length_eq_zero.mp h, fun _ => rfl⟩, ?_⟩
    intro hne
    exact absurd (List.length_eq_zero.mp h) hne
  · rw [if_neg h]
    refine ⟨⟨fun hcontra => ?_, fun hemp => ?_⟩, fun _ => ⟨_, rfl, by simp⟩⟩
    · exact absurd hcontra (by simp)
    · exact absurd (by rw [hemp]; rfl) h

/-- C8 (witness): on the scenario data (one YearSummary) the orchestrator
returns one result for one requested year. -/
theorem claim8_witness :
    ∃ results, getGitHubGraphData scenarioGitlab scenarioData false [2023] claim2Now
        = Except.ok results ∧ results.length = [2023].length :=
  (claim8 scenarioGitlab scenarioData false [2023] claim2Now).2 (by decide)

/-! ## Claim C9 -/

/-- C9: when no requested year equals the calendar year of "now", the
orchestrator's output with `fullYear = true` is identical to its output with
`fullYear = false` — full-year windowing is inert for non-current years. -/
theorem claim9 (gitlab : Nat → Option Nat) (github : ApiResult) (years : List Nat)
    (now : Nat) (h : ∀ y ∈ years, yearOf now ≠ y) :
    getGitHubGraphData gitlab github true years now
      = getGitHubGraphData gitlab github false years now := by
  unfold getGitHubGraphData
  by_cases hlen : (combineContributions gitlab github).years.length = 0
  · rw [if_pos hlen, if_pos hlen]
  · rw [if_neg hlen, if_neg hlen]
    congr 1
    refine List.map_congr_left ?_
    intro y hy
    have hd : decide (yearOf now = y) = false := decide_eq_false (h y hy)
    rw [hd]
    rfl

/-- C9 (witness): requesting year 2022 with "now" in 2024: the two flag
settings give identical results. -/
theorem claim9_witness :
    getGitHubGraphData scenarioGitlab scenarioData true [2022] claim2Now
      = getGitHubGraphData scenarioGitlab scenarioData false [2022] claim2Now :=
  claim9 scenarioGitlab scenarioData [2022] claim2Now (by decide)

end RGC
